import Mathlib

/-!
Shallow embedding of the core ML pipeline of `src/backend/ml/lstm_flood_model.py`
(class `LSTMFloodModel`): feature scaling, sequence windowing, training dispatch
with simulation fallback, prediction with Monte-Carlo confidence, and bundle
persistence.  Machine floats are embedded as exact rationals; numpy arrays as
lists; the optional TensorFlow / sklearn backends as explicit boolean
availability flags and abstract model values.
-/

/-- Per-feature state of the sklearn `MinMaxScaler` held in `self.scaler`:
the per-column data minima and maxima recorded by `fit`. -/
structure ScalerState where
  dataMin : List ℚ
  dataMax : List ℚ
deriving DecidableEq

/-- sklearn `_handle_zeros_in_scale`: a zero data range is replaced by 1 so
that constant columns do not divide by zero. -/
def handleZerosInScale (r : ℚ) : ℚ := if r = 0 then 1 else r

/-- `MinMaxScaler.fit` with default feature range `(0, 1)`: per-column minimum
and maximum over the rows of the data matrix. -/
def FeatureScaler.fit : List (List ℚ) → ScalerState
  | [] => ⟨[], []⟩
  | r :: rs =>
    ⟨rs.foldl (fun acc row => acc.zipWith min row) r,
     rs.foldl (fun acc row => acc.zipWith max row) r⟩

/-- One row of `MinMaxScaler.transform`: `x ↦ (x - dataMin) * scale` with
`scale = 1 / handleZerosInScale (dataMax - dataMin)` (feature range `(0,1)`). -/
def ScalerState.transformRow (s : ScalerState) (row : List ℚ) : List ℚ :=
  (row.zip (s.dataMin.zip s.dataMax)).map
    (fun p => (p.1 - p.2.1) * (1 / handleZerosInScale (p.2.2 - p.2.1)))

/-- `MinMaxScaler.transform` applied row-wise to a feature matrix. -/
def ScalerState.transform (s : ScalerState) (X : List (List ℚ)) : List (List ℚ) :=
  X.map s.transformRow

/-- One row of `MinMaxScaler.inverse_transform`: `y ↦ y / scale + dataMin`. -/
def ScalerState.invRow (s : ScalerState) (row : List ℚ) : List ℚ :=
  (row.zip (s.dataMin.zip s.dataMax)).map
    (fun p => p.1 * handleZerosInScale (p.2.2 - p.2.1) + p.2.1)

/-- `MinMaxScaler.inverse_transform` applied row-wise. -/
def ScalerState.inverse_transform (s : ScalerState) (X : List (List ℚ)) : List (List ℚ) :=
  X.map s.invRow

/-- The windowing loop of `prepare_sequences` (lines 104-109): for
`i in range(sequence_length, len(features) - 1)` append window
`features[i - sequence_length : i]` and target `features[i + 1, 1]`. -/
def buildSequences (seqLen : Nat) (features : List (List ℚ)) :
    List (List (List ℚ)) × List ℚ :=
  let idxs := List.range' seqLen (features.length - 1 - seqLen)
  (idxs.map (fun i => (features.drop (i - seqLen)).take seqLen),
   idxs.map (fun i => (features.getD (i + 1) []).getD 1 0))

/-- The feature matrix `prepare_sequences` windows over: `np.column_stack`
of rainfall and river level, passed through the scaler exactly as the
source does (`fit_transform` when `fit_scaler`, else `transform`;
untouched when sklearn is unavailable). -/
def normalizedFeatures (scaler : Option ScalerState)
    (rainfall river_level : List ℚ) (fitFlag : Bool) : List (List ℚ) :=
  let features0 := List.zipWith (fun a b => [a, b]) rainfall river_level
  match scaler with
  | none => features0
  | some s =>
    if fitFlag then (FeatureScaler.fit features0).transform features0
    else s.transform features0

/-- `LSTMFloodModel.prepare_sequences` (lines 92-109).  Returns the scaler
state after the call (it is refit by `fit_transform` when `fit_scaler` is
true) together with the window array `X` and target array `y`. -/
def prepare_sequences (seqLen : Nat) (scaler : Option ScalerState)
    (rainfall river_level : List ℚ) (fitFlag : Bool) :
    Option ScalerState × List (List (List ℚ)) × List ℚ :=
  let features0 := List.zipWith (fun a b => [a, b]) rainfall river_level
  match scaler with
  | none => (none, buildSequences seqLen features0)
  | some s =>
    if fitFlag then
      let s2 := FeatureScaler.fit features0
      (some s2, buildSequences seqLen (s2.transform features0))
    else
      (some s, buildSequences seqLen (s.transform features0))

/-! ### Helper lemmas for the windowing loop -/

lemma prepare_sequences_eq_build (seqLen : Nat) (sc : Option ScalerState)
    (r l : List ℚ) (b : Bool) :
    (prepare_sequences seqLen sc r l b).2 =
      buildSequences seqLen (normalizedFeatures sc r l b) := by
  cases sc <;> cases b <;> rfl

lemma normalizedFeatures_length (sc : Option ScalerState) (r l : List ℚ) (b : Bool) :
    (normalizedFeatures sc r l b).length = min r.length l.length := by
  cases sc <;> cases b <;> simp [normalizedFeatures, ScalerState.transform]

lemma getD_map_range' {α : Type _} (f : Nat → α) (d : α) (s n k : Nat) (hk : k < n) :
    ((List.range' s n).map f).getD k d = f (s + k) := by
  rw [List.getD_eq_getElem?_getD, List.getElem?_map, List.getElem?_range' s 1 hk]
  simp

lemma buildSequences_fst_length (seqLen : Nat) (F : List (List ℚ)) :
    (buildSequences seqLen F).1.length = F.length - 1 - seqLen := by
  simp [buildSequences]

/-- C1: for every N-row feature series and sequence length `s` with `N ≥ s + 2`,
`prepare_sequences` emits exactly `N - s - 1` windows; window `k` is the `s`
consecutive normalized rows `F[k .. k+s)` (ending just before its end index),
each of length `s`, and its target is the river-level feature (column 1) of the
normalized matrix at row `k + s + 1`. -/
theorem claim1 (s N : Nat) (sc : Option ScalerState) (r l : List ℚ) (b : Bool)
    (hr : r.length = N) (hl : l.length = N) (hN : s + 2 ≤ N) :
    (prepare_sequences s sc r l b).2.1.length = N - s - 1 ∧
    (∀ k, k < N - s - 1 →
      (prepare_sequences s sc r l b).2.1.getD k [] =
        ((normalizedFeatures sc r l b).drop k).take s ∧
      ((prepare_sequences s sc r l b).2.1.getD k []).length = s) ∧
    (∀ k, k < N - s - 1 →
      (prepare_sequences s sc r l b).2.2.getD k 0 =
        ((normalizedFeatures sc r l b).getD (k + s + 1) []).getD 1 0) := by
  have hF : (normalizedFeatures sc r l b).length = N := by
    rw [normalizedFeatures_length, hr, hl, Nat.min_self]
  rw [prepare_sequences_eq_build]
  refine ⟨?_, ?_, ?_⟩
  · rw [buildSequences_fst_length, hF]
    omega
  · intro k hk
    have hkn : k < (normalizedFeatures sc r l b).length - 1 - s := by omega
    have hwin : (buildSequences s (normalizedFeatures sc r l b)).1.getD k [] =
        ((normalizedFeatures sc r l b).drop k).take s := by
      simp only [buildSequences]
      rw [getD_map_range' _ _ _ _ _ hkn]
      have : s + k - s = k := by omega
      rw [this]
    refine ⟨hwin, ?_⟩
    rw [hwin, List.length_take, List.length_drop, hF]
    omega
  · intro k hk
    have hkn : k < (normalizedFeatures sc r l b).length - 1 - s := by omega
    simp only [buildSequences]
    rw [getD_map_range' _ _ _ _ _ hkn]
    have : s + k + 1 = k + s + 1 := by omega
    rw [this]

/-- Concrete 20-step rainfall series used to instantiate C1. -/
def rain20 : List ℚ :=
  [0,1,2,3,4,5,6,7,8,9,10,11,12,13,14,15,16,17,18,19]

/-- Concrete 20-step river-level series used to instantiate C1. -/
def lvl20 : List ℚ :=
  [100,101,102,103,104,105,106,107,108,109,110,111,112,113,114,115,116,117,118,119]

theorem claim1_witness :
    (prepare_sequences 7 none rain20 lvl20 true).2.1.length = 20 - 7 - 1 ∧
    ((prepare_sequences 7 none rain20 lvl20 true).2.1.getD 0 []).length = 7 ∧
    (prepare_sequences 7 none rain20 lvl20 true).2.2.getD 0 0 =
      ((normalizedFeatures none rain20 lvl20 true).getD (0 + 7 + 1) []).getD 1 0 :=
  ⟨(claim1 7 20 none rain20 lvl20 true rfl rfl (by norm_num)).1,
   ((claim1 7 20 none rain20 lvl20 true rfl rfl (by norm_num)).2.1 0 (by norm_num)).2,
   (claim1 7 20 none rain20 lvl20 true rfl rfl (by norm_num)).2.2 0 (by norm_num)⟩

/-! ### Scaler round-trip -/

lemma handleZerosInScale_ne_zero (r : ℚ) : handleZerosInScale r ≠ 0 := by
  unfold handleZerosInScale
  split
  · norm_num
  · assumption

lemma invRow_transformRow (dmin dmax row : List ℚ)
    (h1 : row.length = dmin.length) (h2 : dmin.length = dmax.length) :
    ScalerState.invRow ⟨dmin, dmax⟩ (ScalerState.transformRow ⟨dmin, dmax⟩ row) = row := by
  induction row generalizing dmin dmax with
  | nil => simp [ScalerState.invRow, ScalerState.transformRow]
  | cons x xs ih =>
    cases dmin with
    | nil => simp at h1
    | cons lo los =>
      cases dmax with
      | nil => simp at h2
      | cons hi his =>
        have hne := handleZerosInScale_ne_zero (hi - lo)
        have hx : (x - lo) * (1 / handleZerosInScale (hi - lo)) * handleZerosInScale (hi - lo)
            + lo = x := by
          field_simp
        have htail := ih los his (by simpa using h1) (by simpa using h2)
        simp only [ScalerState.transformRow, ScalerState.invRow, List.zip_cons_cons,
          List.map_cons, List.cons.injEq] at htail ⊢
        exact ⟨hx, htail⟩

/-- C6: for every fitted scaler state (per-feature min/max pairs) and every
feature matrix of matching width, `inverse_transform` is the exact algebraic
inverse of `transform` — over exact rationals the round trip is the identity,
including on constant columns handled by `handleZerosInScale`. -/
theorem claim6 (s : ScalerState) (X : List (List ℚ))
    (hlen : s.dataMin.length = s.dataMax.length)
    (hX : ∀ row ∈ X, row.length = s.dataMin.length) :
    s.inverse_transform (s.transform X) = X := by
  obtain ⟨dmin, dmax⟩ := s
  induction X with
  | nil => rfl
  | cons row rows ih =>
    have hhead := invRow_transformRow dmin dmax row (hX row (by simp)) hlen
    have htail := ih (fun r hr => hX r (by simp [hr]))
    simp only [ScalerState.transform, ScalerState.inverse_transform, List.map_cons,
      List.cons.injEq] at htail ⊢
    exact ⟨hhead, htail⟩

theorem claim6_witness :
    ScalerState.inverse_transform ⟨[0, 1], [2, 1]⟩
      (ScalerState.transform ⟨[0, 1], [2, 1]⟩ [[5, 7]]) = [[5, 7]] :=
  claim6 ⟨[0, 1], [2, 1]⟩ [[5, 7]] rfl (by decide)

/-! ### Scaler state across calls -/

/-- C2 counterexample: a `prepare_sequences` call with `fit_scaler = True`
(the source default) on a scaler fitted to `min = [0,0], max = [1,1]` replaces
the fitted parameters with the new series' min/max — merely preparing
sequences refits the scaler. -/
theorem claim2_cex :
    (prepare_sequences 2 (some ⟨[0, 0], [1, 1]⟩) [2, 3, 4, 5] [4, 5, 6, 7] true).1 ≠
      some ⟨[0, 0], [1, 1]⟩ := by
  norm_num [prepare_sequences, FeatureScaler.fit]

/-- C2 amended: `transform` and `inverse_transform` are parameter-reading maps
that never alter the fitted min/max, and `prepare_sequences` with
`fit_scaler = False` returns the scaler state unchanged; but with
`fit_scaler = True` (the source default) the scaler is refit from the new
series via `fit_transform`. -/
theorem claim2_amended (seqLen : Nat) (s : ScalerState) (r l : List ℚ) :
    (prepare_sequences seqLen (some s) r l false).1 = some s ∧
    (prepare_sequences seqLen (some s) r l true).1 =
      some (FeatureScaler.fit (List.zipWith (fun a b => [a, b]) r l)) := by
  exact ⟨rfl, rfl⟩

/-! ### Absence of input validation in prepare_sequences -/

lemma mem_columnStack_length (r l : List ℚ) :
    ∀ row ∈ List.zipWith (fun a b => [a, b]) r l, row.length = 2 := by
  induction r generalizing l with
  | nil => intro row h; simp at h
  | cons a as ih =>
    intro row h
    cases l with
    | nil => simp at h
    | cons b bs =>
      simp only [List.zipWith_cons_cons, List.mem_cons] at h
      rcases h with h | h
      · simp [h]
      · exact ih bs row h

/-- C3 counterexample: `prepare_sequences` with `sequence_length = 9` on a
3-row series completes normally with empty window and target arrays — no
`ConfigurationError` (or any exception) is raised anywhere in the function. -/
theorem claim3_cex :
    prepare_sequences 9 none [1, 2, 3] [4, 5, 6] true = (none, [], []) := rfl

/-- C3 amended: `prepare_sequences` performs no validation and raises no
error: the feature matrix is built internally by column-stacking the two
input series, so every row has width exactly 2 and a width mismatch with
`n_features` cannot surface there; and whenever `sequence_length + 1` is at
least the series length, the windowing loop body never runs and the function
returns empty window and target arrays instead of erroring. -/
theorem claim3_amended (seqLen N : Nat) (sc : Option ScalerState) (r l : List ℚ)
    (b : Bool) (hr : r.length = N) (hl : l.length = N) (hN : N ≤ seqLen + 1) :
    (prepare_sequences seqLen sc r l b).2 = ([], []) ∧
    (∀ row ∈ List.zipWith (fun a b => [a, b]) r l, row.length = 2) := by
  constructor
  · rw [prepare_sequences_eq_build]
    have hF : (normalizedFeatures sc r l b).length = N := by
      rw [normalizedFeatures_length, hr, hl, Nat.min_self]
    have hz : (normalizedFeatures sc r l b).length - 1 - seqLen = 0 := by omega
    simp only [buildSequences, hz]
    rfl
  · exact mem_columnStack_length r l

theorem claim3_witness :
    (prepare_sequences 7 (some ⟨[0, 0], [1, 1]⟩) [1, 2, 3] [4, 5, 6] true).2 = ([], []) :=
  (claim3_amended 7 3 (some ⟨[0, 0], [1, 1]⟩) [1, 2, 3] [4, 5, 6] true rfl rfl
    (by norm_num)).1

/-! ### Model state, training dispatch, prediction, persistence -/

/-- The `self.model_metadata` dictionary; each key that any code path writes
is an optional field (`none` = key absent, as in the initial empty dict). -/
structure Metadata where
  trained_at : Option String
  epochs : Option Nat
  train_loss : Option ℚ
  train_mae : Option ℚ
  val_loss : Option ℚ
  val_mae : Option ℚ
  sequence_length : Option Nat
  lstm_units : Option (List Nat)
  mode : Option String
  mae : Option ℚ
deriving DecidableEq

/-- The empty dict `{}` that `self.model_metadata` starts as. -/
def Metadata.empty : Metadata :=
  ⟨none, none, none, none, none, none, none, none, none, none⟩

/-- Abstract Keras model: `run` is the deterministic `model.predict` on a
window batch (one scaled scalar per window) and `runStoch t` is the `t`-th
stochastic forward pass `model(X, training=True)` with dropout active. -/
structure KerasModel where
  run : List (List (List ℚ)) → List ℚ
  runStoch : Nat → List (List (List ℚ)) → List ℚ

/-- The mutable attributes of `LSTMFloodModel` that training, prediction and
persistence read or write. -/
structure ModelState where
  model : Option KerasModel
  scaler : Option ScalerState
  is_trained : Bool
  metadata : Metadata

/-- The history dict returned by `train` (`{"loss": [...], "val_loss": [...]}`). -/
structure TrainResult where
  loss : List ℚ
  val_loss : List ℚ
deriving DecidableEq

/-- `LSTMFloodModel._simulate_training` (lines 170-177): marks the model
trained, replaces the metadata wholesale with
`{trained_at, mode: "simulated", mae: 2.5}` and returns the fixed history
`{"loss": [0.1], "val_loss": [0.12]}`. -/
def simulate_training (now : String) (st : ModelState) : ModelState × TrainResult :=
  (⟨st.model, st.scaler, true,
    ⟨some now, none, none, none, none, none, none, none, some "simulated",
     some ((5 : ℚ) / 2)⟩⟩,
   ⟨[(1 : ℚ) / 10], [(3 : ℚ) / 25]⟩)

/-- `LSTMFloodModel.train` (lines 113-168): when TensorFlow is unavailable or
no model was built, it delegates to `_simulate_training`; otherwise it runs the
real Keras fit, abstracted here as an arbitrary `realTrain` step. -/
def train (tfAvailable : Bool) (st : ModelState) (now : String)
    (realTrain : ModelState → ModelState × TrainResult) : ModelState × TrainResult :=
  if !tfAvailable || st.model.isNone then simulate_training now st else realTrain st

/-- `LSTMFloodModel._simulate_prediction` (lines 197-201): per window the last
observed (scaled-space column 1) river level perturbed by the sampled noise
`X[:, -1, 1] * (1 + ε)`, with constant confidence `0.75` per prediction. -/
def simulate_prediction (X : List (List (List ℚ))) (noise : List ℚ) :
    List ℚ × List ℚ :=
  let last := X.map (fun w => (w.getLastD []).getD 1 0)
  let preds := List.zipWith (fun v e => v * (1 + e)) last noise
  (preds, preds.map (fun _ => (3 : ℚ) / 4))

/-- `np.clip(x, lo, hi)` on a scalar. -/
def npClip (x lo hi : ℚ) : ℚ := max lo (min x hi)

/-- `np.var`: population variance of a sample list. -/
def npVar (xs : List ℚ) : ℚ :=
  let n : ℚ := (xs.length : ℚ)
  let m := xs.sum / n
  ((xs.map (fun x => (x - m) ^ 2)).sum) / n

/-- `LSTMFloodModel._calculate_confidence` (lines 203-207): `n_samples`
stochastic forward passes, per-window variance across the samples, and
`1 / (1 + variance)` clipped to `[0.5, 0.95]`. -/
def calculate_confidence (km : KerasModel) (X : List (List (List ℚ)))
    (n_samples : Nat) : List ℚ :=
  let preds := (List.range n_samples).map (fun t => km.runStoch t X)
  (List.range X.length).map (fun j =>
    npClip (1 / (1 + npVar (preds.map (fun ps => ps.getD j 0)))) ((1 : ℚ) / 2)
      ((19 : ℚ) / 20))

/-- `LSTMFloodModel.predict` (lines 181-195): with no TensorFlow backend or no
model it returns `_simulate_prediction` (confidence included unconditionally);
otherwise it runs the model, maps the scaled output back through
`inverse_transform` on a zero-padded dummy matrix (column 1), and attaches
Monte-Carlo confidence only when `return_confidence` is set. -/
def predict (tfAvailable : Bool) (st : ModelState) (X : List (List (List ℚ)))
    (return_confidence : Bool) (noise : List ℚ) : List ℚ × Option (List ℚ) :=
  match tfAvailable, st.model with
  | true, some km =>
    let preds_scaled := km.run X
    let preds :=
      match st.scaler with
      | some s =>
        (s.inverse_transform (preds_scaled.map (fun p => [0, p]))).map
          (fun row => row.getD 1 0)
      | none => preds_scaled
    (preds, if return_confidence then some (calculate_confidence km X 10) else none)
  | _, _ =>
    ((simulate_prediction X noise).1, some (simulate_prediction X noise).2)

/-- Abstract filesystem for `save_model` / `load_model`: which paths exist and
what artifact each existing path deserializes to. -/
structure FileSystem where
  present : String → Bool
  modelAt : String → KerasModel
  scalerAt : String → ScalerState
  metaAt : String → Metadata

/-- `LSTMFloodModel.load_model` (lines 223-235): loads the weights artifact
only if TensorFlow is available and the path exists (setting `is_trained`),
then the scaler artifact if present, then the metadata artifact if present;
every absent artifact is silently skipped. -/
def load_model (tfAvailable : Bool) (fs : FileSystem) (st : ModelState)
    (path : String) : ModelState :=
  let st1 : ModelState :=
    if tfAvailable && fs.present path then
      ⟨some (fs.modelAt path), st.scaler, true, st.metadata⟩
    else st
  let scalerPath := path.replace ".h5" "_scaler.joblib"
  let st2 : ModelState :=
    if fs.present scalerPath then
      ⟨st1.model, some (fs.scalerAt scalerPath), st1.is_trained, st1.metadata⟩
    else st1
  let metaPath := path.replace ".h5" "_metadata.json"
  if fs.present metaPath then
    ⟨st2.model, st2.scaler, st2.is_trained, fs.metaAt metaPath⟩
  else st2

/-! ### Training fallback (C9) -/

/-- C9: when the TensorFlow backend is unavailable, `train` does not raise —
it returns the simulated history `{"loss": [0.1], "val_loss": [0.12]}` and
replaces the metadata with `mode = "simulated"` and the fixed fabricated
metric `mae = 2.5`, marking the model trained. -/
theorem claim9 (st : ModelState) (now : String)
    (realTrain : ModelState → ModelState × TrainResult) :
    train false st now realTrain = simulate_training now st ∧
    (train false st now realTrain).2.loss = [(1 : ℚ) / 10] ∧
    (train false st now realTrain).2.val_loss = [(3 : ℚ) / 25] ∧
    (train false st now realTrain).1.metadata.mode = some "simulated" ∧
    (train false st now realTrain).1.metadata.mae = some ((5 : ℚ) / 2) ∧
    (train false st now realTrain).1.is_trained = true := by
  refine ⟨rfl, ?_, ?_, ?_, ?_, ?_⟩ <;> rfl

/-! ### Simulation-path confidence vs the return_confidence flag (C10) -/

/-- C10: on the simulation path `predict` always returns a confidence list of
`0.75` per prediction (the `return_confidence` flag is never consulted), while
on the learned path `return_confidence = false` yields no confidence at all. -/
theorem claim10 (st : ModelState) (X : List (List (List ℚ)))
    (return_confidence : Bool) (noise : List ℚ) (km : KerasModel)
    (sc : Option ScalerState) (b : Bool) (mt : Metadata) (noise2 : List ℚ) :
    (predict false st X return_confidence noise).2 =
      some ((predict false st X return_confidence noise).1.map (fun _ => (3 : ℚ) / 4)) ∧
    (predict true ⟨some km, sc, b, mt⟩ X false noise2).2 = none := by
  exact ⟨rfl, rfl⟩

/-! ### Confidence bounds (C7) -/

lemma mem_calculate_confidence (km : KerasModel) (X : List (List (List ℚ)))
    (n : Nat) (c : ℚ) (hc : c ∈ calculate_confidence km X n) :
    (1 : ℚ) / 2 ≤ c ∧ c ≤ (19 : ℚ) / 20 := by
  simp only [calculate_confidence, List.mem_map] at hc
  obtain ⟨j, _, rfl⟩ := hc
  unfold npClip
  exact ⟨le_max_left _ _, max_le (by norm_num) (min_le_right _ _)⟩

/-- C7: every confidence value `predict` ever returns lies in `[0.5, 0.95]`:
on the learned path each value is `1 / (1 + variance)` over the Monte-Carlo
samples clipped to `[0.5, 0.95]`, and on the simulation path it is the
constant `0.75`. -/
theorem claim7 (tfAvailable : Bool) (st : ModelState) (X : List (List (List ℚ)))
    (return_confidence : Bool) (noise : List ℚ) (conf : List ℚ)
    (hconf : (predict tfAvailable st X return_confidence noise).2 = some conf)
    (c : ℚ) (hc : c ∈ conf) : (1 : ℚ) / 2 ≤ c ∧ c ≤ (19 : ℚ) / 20 := by
  cases tfAvailable with
  | false =>
    have hsim : predict false st X return_confidence noise =
        ((simulate_prediction X noise).1, some (simulate_prediction X noise).2) := rfl
    rw [hsim] at hconf
    have hc2 : conf = (simulate_prediction X noise).2 := (Option.some.inj hconf).symm
    subst hc2
    simp only [simulate_prediction, List.mem_map] at hc
    obtain ⟨_, _, rfl⟩ := hc
    norm_num
  | true =>
    cases hm : st.model with
    | none =>
      have hsim : predict true st X return_confidence noise =
          ((simulate_prediction X noise).1, some (simulate_prediction X noise).2) := by
        unfold predict
        rw [hm]
      rw [hsim] at hconf
      have hc2 : conf = (simulate_prediction X noise).2 := (Option.some.inj hconf).symm
      subst hc2
      simp only [simulate_prediction, List.mem_map] at hc
      obtain ⟨_, _, rfl⟩ := hc
      norm_num
    | some km =>
      have hlearn : (predict true st X return_confidence noise).2 =
          (if return_confidence then some (calculate_confidence km X 10) else none) := by
        unfold predict
        rw [hm]
      rw [hlearn] at hconf
      cases return_confidence with
      | false => simp at hconf
      | true =>
        rw [if_pos rfl] at hconf
        have hc2 : conf = calculate_confidence km X 10 := (Option.some.inj hconf).symm
        subst hc2
        exact mem_calculate_confidence km X 10 c hc

theorem claim7_witness :
    (predict false ⟨none, none, false, Metadata.empty⟩ [[[0, 1]]] true [0]).2 =
      some [(3 : ℚ) / 4] ∧
    ((1 : ℚ) / 2 ≤ 3 / 4 ∧ (3 : ℚ) / 4 ≤ 19 / 20) :=
  ⟨by norm_num [predict, simulate_prediction],
   claim7 false ⟨none, none, false, Metadata.empty⟩ [[[0, 1]]] true [0] [(3 : ℚ) / 4]
     (by norm_num [predict, simulate_prediction]) ((3 : ℚ) / 4) (by norm_num)⟩

/-! ### Bundle loading with missing artifacts (C4) -/

/-- A filesystem on which no artifact path exists. -/
def fsNone : FileSystem :=
  ⟨fun _ => false, fun _ => ⟨fun _ => [], fun _ _ => []⟩, fun _ => ⟨[], []⟩,
   fun _ => Metadata.empty⟩

/-- The freshly constructed state: no model, no scaler fitted state recorded,
not trained, empty metadata. -/
def initState : ModelState := ⟨none, none, false, Metadata.empty⟩

/-- C4 counterexample: loading from a path whose weights artifact is absent
completes normally — no `PersistenceError` (or any exception) is raised — and
leaves the state with no model and `is_trained = False`. -/
theorem claim4_cex :
    (load_model true fsNone initState "model.h5").model = none ∧
    (load_model true fsNone initState "model.h5").is_trained = false := by
  exact ⟨rfl, rfl⟩

/-- C4 amended: `load_model` tolerates every missing artifact, the weights
artifact included: when the weights path is absent the model and
`is_trained` are simply left unchanged (no error), while a present scaler or
metadata artifact is still loaded and an absent one leaves the prior state. -/
theorem claim4_amended (tfAvailable : Bool) (fs : FileSystem) (st : ModelState)
    (path : String) (hw : fs.present path = false) :
    (load_model tfAvailable fs st path).model = st.model ∧
    (load_model tfAvailable fs st path).is_trained = st.is_trained ∧
    (fs.present (path.replace ".h5" "_scaler.joblib") = true →
      (load_model tfAvailable fs st path).scaler =
        some (fs.scalerAt (path.replace ".h5" "_scaler.joblib"))) ∧
    (fs.present (path.replace ".h5" "_scaler.joblib") = false →
      (load_model tfAvailable fs st path).scaler = st.scaler) ∧
    (fs.present (path.replace ".h5" "_metadata.json") = true →
      (load_model tfAvailable fs st path).metadata =
        fs.metaAt (path.replace ".h5" "_metadata.json")) ∧
    (fs.present (path.replace ".h5" "_metadata.json") = false →
      (load_model tfAvailable fs st path).metadata = st.metadata) := by
  unfold load_model
  cases hsp : fs.present (path.replace ".h5" "_scaler.joblib") <;>
    cases hmp : fs.present (path.replace ".h5" "_metadata.json") <;>
      simp [hw, hsp, hmp]

theorem claim4_witness :
    (load_model true fsNone initState "other.h5").model = initState.model :=
  (claim4_amended true fsNone initState "other.h5" rfl).1

/-! ### Simulated predictions are not tagged (C5) -/

/-- Ten Monte-Carlo dropout samples with mean 0 and population variance
exactly 1/3, so the learned-path confidence `1 / (1 + variance)` equals the
simulation path's fixed 0.75. -/
def mcSample (t : Nat) : ℚ :=
  if t = 0 then 1 else if t = 1 then -1 else if t = 2 then 2/3 else if t = 3 then -2/3
  else if t = 4 then 1/3 else if t = 5 then -1/3 else if t = 6 then 1/3
  else if t = 7 then -1/3 else 0

/-- A possible Keras model whose deterministic output and Monte-Carlo dropout
samples reproduce a simulation-backend output exactly. -/
def kmMC : KerasModel := ⟨fun _ => [1], fun t _ => [mcSample t]⟩

/-- C5 counterexample: a learned-path prediction (TensorFlow available, model
loaded) and a simulation-path prediction that are byte-for-byte identical
`(predictions, confidence)` pairs — no inspection of the prediction output can
distinguish the simulation backend from the learned one. -/
theorem claim5_cex :
    predict true ⟨some kmMC, none, true, Metadata.empty⟩ [[[0, 1]]] true [0] =
      predict false initState [[[0, 1]]] true [0] := by
  have hr10 : List.range 10 = [0, 1, 2, 3, 4, 5, 6, 7, 8, 9] := rfl
  have hr1 : List.range 1 = [0] := rfl
  norm_num [predict, calculate_confidence, npVar, npClip, simulate_prediction, mcSample,
    kmMC, hr10, hr1, min_def, max_def, List.getD, List.getLastD, initState]

/-- C5 amended: simulation-path predictions carry no tag in the prediction
output itself (the pair can coincide exactly with a learned output); what the
backend does emit is a fixed confidence of 0.75 per prediction, and simulation
mode is recorded only in the training metadata (`mode = "simulated"`). -/
theorem claim5_amended (st : ModelState) (X : List (List (List ℚ)))
    (return_confidence : Bool) (noise : List ℚ) (now : String) :
    (predict false st X return_confidence noise).2 =
      some ((simulate_prediction X noise).1.map (fun _ => (3 : ℚ) / 4)) ∧
    (simulate_training now st).1.metadata.mode = some "simulated" := by
  exact ⟨rfl, rfl⟩

/-! ### Early stopping (C8) -/

/-- Modelled from the spec: the state of the Keras
`EarlyStopping(monitor="val_loss", patience=15, restore_best_weights=True)`
callback that `train` installs (source lines 133-136); the callback
implementation lives in Keras, not in this repository. It tracks the best
observed validation loss with its weights, the number of epochs since the
last improvement, whether training has halted, and the last epoch run. -/
structure ESState (W : Type) where
  best : Option (ℚ × W)
  wait : Nat
  halted : Bool
  epochsRun : Nat

/-- Modelled from the spec: one monitored epoch — a validation loss strictly
below the best records new best weights and resets the wait counter;
otherwise the wait counter grows and training halts once it reaches the
patience. After halting, later epochs do not run. -/
def esStep {W : Type} (patience : Nat) (losses : Nat → ℚ) (weights : Nat → W)
    (st : ESState W) (e : Nat) : ESState W :=
  if st.halted then st
  else
    match st.best with
    | none => ⟨some (losses e, weights e), 0, false, e⟩
    | some (b, w) =>
      if losses e < b then ⟨some (losses e, weights e), 0, false, e⟩
      else ⟨some (b, w), st.wait + 1, decide (patience ≤ st.wait + 1), e⟩

/-- Modelled from the spec: feed `n` consecutive epochs starting at epoch `e`
through the early-stopping monitor. -/
def runESFrom {W : Type} (patience : Nat) (losses : Nat → ℚ) (weights : Nat → W) :
    Nat → Nat → ESState W → ESState W
  | _, 0, st => st
  | e, n + 1, st =>
    runESFrom patience losses weights (e + 1) n (esStep patience losses weights st e)

/-- Modelled from the spec: a training run of `epochs` epochs (numbered from
1) under early stopping, from the fresh callback state. -/
def runEarlyStopping {W : Type} (patience epochs : Nat) (losses : Nat → ℚ)
    (weights : Nat → W) : ESState W :=
  runESFrom patience losses weights 1 epochs ⟨none, 0, false, 0⟩

/-- Modelled from the spec: `restore_best_weights=True` — the weights in
effect after training are those recorded at the best validation loss. -/
def restoredWeights {W : Type} (w0 : W) (st : ESState W) : W :=
  match st.best with
  | some (_, w) => w
  | none => w0

lemma runESFrom_halted {W : Type} (p : Nat) (l : Nat → ℚ) (wt : Nat → W)
    (e n : Nat) (st : ESState W) (h : st.halted = true) :
    runESFrom p l wt e n st = st := by
  induction n generalizing e with
  | zero => rfl
  | succ n ih =>
    have hstep : esStep p l wt st e = st := by simp [esStep, h]
    show runESFrom p l wt (e + 1) n (esStep p l wt st e) = st
    rw [hstep]
    exact ih (e + 1)

lemma runESFrom_add {W : Type} (p : Nat) (l : Nat → ℚ) (wt : Nat → W) (m : Nat) :
    ∀ (n e : Nat) (st : ESState W),
      runESFrom p l wt e (m + n) st =
        runESFrom p l wt (e + m) n (runESFrom p l wt e m st) := by
  induction m with
  | zero =>
    intro n e st
    have h0 : runESFrom p l wt e 0 st = st := rfl
    simp [h0]
  | succ m ih =>
    intro n e st
    have h1 : m + 1 + n = m + n + 1 := by omega
    rw [h1]
    show runESFrom p l wt (e + 1) (m + n) (esStep p l wt st e) =
      runESFrom p l wt (e + (m + 1)) n (runESFrom p l wt e (m + 1) st)
    rw [ih n (e + 1) (esStep p l wt st e)]
    have h3 : e + 1 + m = e + (m + 1) := by omega
    rw [h3]
    rfl

lemma runESFrom_stall {W : Type} (l : Nat → ℚ) (wt : Nat → W) (B : ℚ) (bw : W) :
    ∀ (n e w r : Nat), w < 15 → 15 - w ≤ n → (∀ j, ¬ l (e + j) < B) →
      runESFrom 15 l wt e n ⟨some (B, bw), w, false, r⟩ =
        ⟨some (B, bw), 15, true, e + (14 - w)⟩ := by
  intro n
  induction n with
  | zero => intro e w r hw hn hB; omega
  | succ n ih =>
    intro e w r hw hn hB
    have hnotlt : ¬ l e < B := by simpa using hB 0
    have hstep : esStep 15 l wt ⟨some (B, bw), w, false, r⟩ e =
        ⟨some (B, bw), w + 1, decide (15 ≤ w + 1), e⟩ := by
      simp [esStep, hnotlt]
    show runESFrom 15 l wt (e + 1) n (esStep 15 l wt ⟨some (B, bw), w, false, r⟩ e) = _
    rw [hstep]
    by_cases hw1 : w + 1 = 15
    · have hd : decide (15 ≤ w + 1) = true := by simp [hw1]
      rw [hd, runESFrom_halted 15 l wt (e + 1) n _ rfl]
      have h14 : 14 - w = 0 := by omega
      rw [hw1, h14]
      rfl
    · have hd : decide (15 ≤ w + 1) = false := by simp; omega
      rw [hd]
      have hB2 : ∀ j, ¬ l (e + 1 + j) < B := by
        intro j
        have h := hB (j + 1)
        rwa [show e + (j + 1) = e + 1 + j by omega] at h
      rw [ih (e + 1) (w + 1) e (by omega) (by omega) hB2]
      have h4 : e + 1 + (14 - (w + 1)) = e + (14 - w) := by omega
      rw [h4]

/-- C8: under the configured early stopping (patience 15, restore best
weights), if validation loss improves strictly through epoch 5 and never
improves on epoch 5's loss afterwards, then training halts no later than
epoch 20 and the weights in effect on return are those of epoch 5. -/
theorem claim8 {W : Type} (epochs : Nat) (losses : Nat → ℚ) (weights : Nat → W)
    (w0 : W) (hep : 20 ≤ epochs)
    (himp : ∀ e, 1 ≤ e → e < 5 → losses (e + 1) < losses e)
    (hstall : ∀ e, 5 < e → ¬ losses e < losses 5) :
    (runEarlyStopping 15 epochs losses weights).halted = true ∧
    (runEarlyStopping 15 epochs losses weights).epochsRun ≤ 20 ∧
    restoredWeights w0 (runEarlyStopping 15 epochs losses weights) = weights 5 := by
  have h21 : losses 2 < losses 1 := himp 1 (by norm_num) (by norm_num)
  have h32 : losses 3 < losses 2 := himp 2 (by norm_num) (by norm_num)
  have h43 : losses 4 < losses 3 := himp 3 (by norm_num) (by norm_num)
  have h54 : losses 5 < losses 4 := himp 4 (by norm_num) (by norm_num)
  have e1 : esStep 15 losses weights ⟨none, 0, false, 0⟩ 1 =
      ⟨some (losses 1, weights 1), 0, false, 1⟩ := by simp [esStep]
  have e2 : esStep 15 losses weights ⟨some (losses 1, weights 1), 0, false, 1⟩ 2 =
      ⟨some (losses 2, weights 2), 0, false, 2⟩ := by simp [esStep, h21]
  have e3 : esStep 15 losses weights ⟨some (losses 2, weights 2), 0, false, 2⟩ 3 =
      ⟨some (losses 3, weights 3), 0, false, 3⟩ := by simp [esStep, h32]
  have e4 : esStep 15 losses weights ⟨some (losses 3, weights 3), 0, false, 3⟩ 4 =
      ⟨some (losses 4, weights 4), 0, false, 4⟩ := by simp [esStep, h43]
  have e5 : esStep 15 losses weights ⟨some (losses 4, weights 4), 0, false, 4⟩ 5 =
      ⟨some (losses 5, weights 5), 0, false, 5⟩ := by simp [esStep, h54]
  have hpre : runESFrom 15 losses weights 1 5 ⟨none, 0, false, 0⟩ =
      ⟨some (losses 5, weights 5), 0, false, 5⟩ := by
    show runESFrom 15 losses weights 2 4 (esStep 15 losses weights ⟨none, 0, false, 0⟩ 1) = _
    rw [e1]
    show runESFrom 15 losses weights 3 3
      (esStep 15 losses weights ⟨some (losses 1, weights 1), 0, false, 1⟩ 2) = _
    rw [e2]
    show runESFrom 15 losses weights 4 2
      (esStep 15 losses weights ⟨some (losses 2, weights 2), 0, false, 2⟩ 3) = _
    rw [e3]
    show runESFrom 15 losses weights 5 1
      (esStep 15 losses weights ⟨some (losses 3, weights 3), 0, false, 3⟩ 4) = _
    rw [e4]
    show runESFrom 15 losses weights 6 0
      (esStep 15 losses weights ⟨some (losses 4, weights 4), 0, false, 4⟩ 5) = _
    rw [e5]
    rfl
  have hrun : runEarlyStopping 15 epochs losses weights =
      ⟨some (losses 5, weights 5), 15, true, 20⟩ := by
    unfold runEarlyStopping
    obtain ⟨k, hk⟩ : ∃ k, epochs = 5 + k := ⟨epochs - 5, by omega⟩
    subst hk
    rw [runESFrom_add 15 losses weights 5 k 1 ⟨none, 0, false, 0⟩, hpre]
    have h6 : (1 : Nat) + 5 = 6 := rfl
    rw [h6]
    have hB : ∀ j, ¬ losses (6 + j) < losses 5 := fun j => hstall (6 + j) (by omega)
    rw [runESFrom_stall losses weights (losses 5) (weights 5) k 6 0 5 (by norm_num)
      (by omega) hB]
  refine ⟨by rw [hrun], by rw [hrun], by rw [hrun]; rfl⟩

/-- Concrete validation-loss curve that improves strictly through epoch 5 and
plateaus afterwards, instantiating C8. -/
def lossW (e : Nat) : ℚ := if e ≤ 5 then 6 - (e : ℚ) else 10

theorem claim8_witness :
    (runEarlyStopping 15 25 lossW (fun e => e)).halted = true ∧
    (runEarlyStopping 15 25 lossW (fun e => e)).epochsRun ≤ 20 ∧
    restoredWeights 0 (runEarlyStopping 15 25 lossW (fun e => e)) = 5 :=
  claim8 25 lossW (fun e => e) 0 (by norm_num)
    (by
      intro e h1 h2
      have hle : e + 1 ≤ 5 := by omega
      have hle2 : e ≤ 5 := by omega
      simp only [lossW, if_pos hle, if_pos hle2]
      push_cast
      linarith)
    (by
      intro e he
      have hn : ¬ e ≤ 5 := by omega
      simp only [lossW, if_neg hn, if_pos (by norm_num : (5 : Nat) ≤ 5)]
      norm_num)
